import Mathlib

/-!
Verification development for the HTML-to-PDF converter component.

The definitions below are a shallow embedding of the pagination /
rasterization pipeline and of the command execution state machine of the
component (`PrintPreview` in the React layer, `HtmlToPdfComponent` in the
host layer).  Pure computations (page geometry, payload validation, the
slicing loop, segment construction) become Lean functions over `ℚ`, `ℕ`,
`ℤ`, `String` and lists; the React effect pairs that queue and execute
commands become explicit state-transition functions; fallible or
event-emitting code returns an explicit result structure carrying the new
state, the outcome, and the list of emitted events.
-/

namespace HtmlPdf

/-! ## Page geometry constants

From `PrintPreview.handleDownload`: A4 page size in points is
595.28 × 841.89 with a 36 point (half inch) margin on all sides. -/

def pageWidth : ℚ := 595.28

def pageHeight : ℚ := 841.89

def margin : ℚ := 36

def availableWidth : ℚ := pageWidth - margin * 2

def availableHeight : ℚ := pageHeight - margin * 2

theorem availableHeight_pos : 0 < availableHeight := by
  norm_num [availableHeight, pageHeight, margin]

theorem availableWidth_pos : 0 < availableWidth := by
  norm_num [availableWidth, pageWidth, margin]

/-! ## No-marker slicing path (`addCanvasAsSlicedPages`)

The source scales the full-page raster to fit the available width
(`scale = availableWidth / png.width`, so
`scaledHeight = png.height * scale`) and then walks a vertical offset from
0 in steps of `availableHeight` while the offset remains below the scaled
height, adding one page per step.  The `while` loop is embedded with an
explicit fuel parameter so that the function stays structurally recursive;
the returned list holds the successive `offsetY` values, one per added
page. -/

def addCanvasAsSlicedPagesLoop : ℕ → ℚ → ℚ → List ℚ
  | 0, _, _ => []
  | fuel + 1, offsetY, scaledHeight =>
    if offsetY < scaledHeight then
      offsetY :: addCanvasAsSlicedPagesLoop fuel (offsetY + availableHeight) scaledHeight
    else []

def addCanvasAsSlicedPages (fuel : ℕ) (imgW imgH : ℚ) : List ℚ :=
  addCanvasAsSlicedPagesLoop fuel 0 (imgH * (availableWidth / imgW))

theorem addCanvasAsSlicedPagesLoop_length (fuel : ℕ) :
    ∀ offsetY scaledHeight : ℚ,
      (⌈(scaledHeight - offsetY) / availableHeight⌉).toNat ≤ fuel →
      (addCanvasAsSlicedPagesLoop fuel offsetY scaledHeight).length
        = (⌈(scaledHeight - offsetY) / availableHeight⌉).toNat := by
  induction fuel with
  | zero =>
    intro offsetY scaledHeight hfuel
    simp only [addCanvasAsSlicedPagesLoop, List.length_nil]
    omega
  | succ fuel ih =>
    intro offsetY scaledHeight hfuel
    by_cases h : offsetY < scaledHeight
    · have hA : (0 : ℚ) < availableHeight := availableHeight_pos
      have hstep : (scaledHeight - (offsetY + availableHeight)) / availableHeight
          = (scaledHeight - offsetY) / availableHeight - 1 := by
        rw [show scaledHeight - (offsetY + availableHeight)
            = (scaledHeight - offsetY) - availableHeight by ring, sub_div,
          div_self (ne_of_gt hA)]
      have hpos : 0 < ⌈(scaledHeight - offsetY) / availableHeight⌉ := by
        rw [Int.ceil_pos]
        exact div_pos (by linarith) hA
      have hnext : ⌈(scaledHeight - (offsetY + availableHeight)) / availableHeight⌉
          = ⌈(scaledHeight - offsetY) / availableHeight⌉ - 1 := by
        rw [hstep, Int.ceil_sub_one]
      simp only [addCanvasAsSlicedPagesLoop, if_pos h, List.length_cons]
      rw [ih (offsetY + availableHeight) scaledHeight (by rw [hnext]; omega), hnext]
      omega
    · have hA : (0 : ℚ) < availableHeight := availableHeight_pos
      have hle : (scaledHeight - offsetY) / availableHeight ≤ 0 := by
        apply div_nonpos_of_nonpos_of_nonneg
        · linarith
        · linarith
      have : ⌈(scaledHeight - offsetY) / availableHeight⌉ ≤ 0 := by
        exact_mod_cast Int.ceil_le.mpr (by exact_mod_cast hle)
      simp only [addCanvasAsSlicedPagesLoop, if_neg h, List.length_nil]
      omega

/-- Claim C2: in the no-marker path, for a raster of width `imgW > 0` and
scaled height `H = imgH * (availableWidth / imgW)`, with available page
height `A = 841.89 - 2*36`, the slicing loop adds exactly `⌈H / A⌉` PDF
pages, walking the vertical offset from 0 in steps of `A` while it remains
below `H` (given enough fuel to run the embedded loop to completion). -/
theorem sliced_pages_count_eq_ceil (fuel : ℕ) (imgW imgH : ℚ)
    (hW : 0 < imgW) (hH : 0 ≤ imgH)
    (hfuel : (⌈(imgH * (availableWidth / imgW)) / availableHeight⌉).toNat ≤ fuel) :
    ((addCanvasAsSlicedPages fuel imgW imgH).length : ℤ)
      = ⌈(imgH * (availableWidth / imgW)) / availableHeight⌉ := by
  have h := addCanvasAsSlicedPagesLoop_length fuel 0 (imgH * (availableWidth / imgW))
    (by rw [sub_zero]; exact hfuel)
  have hH0 : 0 ≤ imgH * (availableWidth / imgW) :=
    mul_nonneg hH (le_of_lt (div_pos availableWidth_pos hW))
  have hceil : 0 ≤ ⌈(imgH * (availableWidth / imgW)) / availableHeight⌉ := by
    apply Int.ceil_nonneg
    exact div_nonneg hH0 (le_of_lt availableHeight_pos)
  rw [addCanvasAsSlicedPages, h, sub_zero, Int.toNat_of_nonneg hceil]

/-- Witness for C2, following the spec scenario: a full-width raster
(`imgW = availableWidth`, so the fit-to-width scale is 1) of height 3000
points is sliced into `⌈3000 / 769.89⌉ = 4` pages. -/
theorem sliced_pages_count_eq_ceil_witness :
    ((addCanvasAsSlicedPages 10 availableWidth 3000).length : ℤ) = 4 := by
  have hceil : ⌈((3000 : ℚ) * (availableWidth / availableWidth)) / availableHeight⌉
      = 4 := by
    rw [div_self (ne_of_gt availableWidth_pos), mul_one, Int.ceil_eq_iff]
    constructor
    · norm_num [availableHeight, pageHeight, margin]
    · norm_num [availableHeight, pageHeight, margin]
  have h := sliced_pages_count_eq_ceil 10 availableWidth 3000
    availableWidth_pos (by norm_num) (by rw [hceil]; norm_num)
  rw [h, hceil]

/-! ## Marker path page placement (`addCanvasAsSinglePage`)

Each non-empty segment raster becomes exactly one A4 page.  The image is
scaled uniformly by `min (availableWidth / imgW) (availableHeight / imgH)`
and drawn at `x = margin + (availableWidth - scaledWidth) / 2`,
`y = pageHeight - margin - scaledHeight` (PDF coordinates measure `y` from
the bottom of the page, so this places the top edge of the image at the
top margin line). -/

structure SinglePagePlacement where
  pageW : ℚ
  pageH : ℚ
  x : ℚ
  y : ℚ
  width : ℚ
  height : ℚ
deriving DecidableEq

def addCanvasAsSinglePage (imgW imgH : ℚ) : SinglePagePlacement :=
  let scale := min (availableWidth / imgW) (availableHeight / imgH)
  let scaledWidth := imgW * scale
  let scaledHeight := imgH * scale
  { pageW := pageWidth
    pageH := pageHeight
    x := margin + (availableWidth - scaledWidth) / 2
    y := pageHeight - margin - scaledHeight
    width := scaledWidth
    height := scaledHeight }

/-- Counterexample for C4: the placed image is not bottom-aligned within
the margin box.  For a 100 × 100 raster the scaled height (523.28) is
strictly smaller than the available height (769.89), yet the bottom edge
of the image lands at `y = 282.61 ≠ margin`: the free space is left below
the image, i.e. the image hangs from the top margin line instead of
resting on the bottom one. -/
theorem single_page_not_bottom_aligned :
    (addCanvasAsSinglePage 100 100).height < availableHeight ∧
    (addCanvasAsSinglePage 100 100).y ≠ margin := by
  constructor
  · norm_num [addCanvasAsSinglePage, availableWidth, availableHeight, pageWidth,
      pageHeight, margin, min_def]
  · norm_num [addCanvasAsSinglePage, availableWidth, availableHeight, pageWidth,
      pageHeight, margin, min_def]

/-- Claim C4 (amended): every non-empty segment raster becomes exactly one
PDF page of fixed size 595.28 × 841.89 points with a 36 point margin, the
image scaled uniformly by `min (availableWidth / imgW, availableHeight / imgH)`,
centered horizontally, and top-aligned within the margin box (its top edge
sits on the top margin line; the source computes
`y = pageHeight - margin - scaledHeight` in bottom-origin PDF
coordinates). -/
theorem single_page_placement (imgW imgH : ℚ) (hW : 0 < imgW) (hH : 0 < imgH) :
    (addCanvasAsSinglePage imgW imgH).pageW = 595.28 ∧
    (addCanvasAsSinglePage imgW imgH).pageH = 841.89 ∧
    (addCanvasAsSinglePage imgW imgH).width
      = imgW * min (availableWidth / imgW) (availableHeight / imgH) ∧
    (addCanvasAsSinglePage imgW imgH).height
      = imgH * min (availableWidth / imgW) (availableHeight / imgH) ∧
    (addCanvasAsSinglePage imgW imgH).x - margin
      = (availableWidth - (addCanvasAsSinglePage imgW imgH).width) / 2 ∧
    (addCanvasAsSinglePage imgW imgH).y + (addCanvasAsSinglePage imgW imgH).height
      = pageHeight - margin := by
  refine ⟨rfl, rfl, rfl, rfl, ?_, ?_⟩
  · simp only [addCanvasAsSinglePage]
    ring
  · simp only [addCanvasAsSinglePage]
    ring

/-- Witness for C4 (amended) at a concrete 200 × 400 raster. -/
theorem single_page_placement_witness :
    (addCanvasAsSinglePage 200 400).width
      = 200 * min (availableWidth / 200) (availableHeight / 400) ∧
    (addCanvasAsSinglePage 200 400).y + (addCanvasAsSinglePage 200 400).height
      = pageHeight - margin := by
  have h := single_page_placement 200 400 (by norm_num) (by norm_num)
  exact ⟨h.2.2.1, h.2.2.2.2.2⟩

/-! ## Marker segmentation loop (`handleDownload`, marker path)

`doc.querySelectorAll` returns the page-marker elements in document order,
at any nesting depth.  The loop builds one `Range` per marker index:
segment 0 starts at `(doc.body, 0)` (document start) and segment `i ≥ 1`
starts before marker `i`; every segment ends before marker `i + 1` when
one exists and at `(doc.body, doc.body.childNodes.length)` (document end)
otherwise.  Range boundaries are single points in the linearised document
order, so the embedding represents each marker by its document-order
boundary position (a natural number) and the document end by `docEnd`;
a segment is the half-open interval between its two boundary positions. -/

def markerSegments (markers : List ℕ) (docEnd : ℕ) : List (ℕ × ℕ) :=
  (List.range markers.length).map fun index =>
    (if index = 0 then 0 else markers.getD index 0,
     if index + 1 < markers.length then markers.getD (index + 1) 0 else docEnd)

theorem markerSegments_getD (markers : List ℕ) (docEnd : ℕ) (i : ℕ)
    (h : i < markers.length) :
    (markerSegments markers docEnd).getD i (0, 0)
      = (if i = 0 then 0 else markers.getD i 0,
         if i + 1 < markers.length then markers.getD (i + 1) 0 else docEnd) := by
  rw [markerSegments, List.getD_eq_getElem?_getD, List.getElem?_map,
    List.getElem?_range h]
  rfl

/-- Claim C3: for a document with `n ≥ 1` page markers listed in document
order, the segmentation loop builds exactly `n` segments: segment 0 starts
at document start (position 0), segment `i ≥ 1` starts at marker `i`'s
boundary, consecutive segments share their boundary (no gaps, no
overlaps), the last segment ends at document end, and every segment is a
well-formed (start ≤ end) range. -/
theorem marker_segments_partition (markers : List ℕ) (docEnd : ℕ)
    (hne : markers ≠ []) (hsorted : markers.Pairwise (· < ·))
    (hbound : ∀ m ∈ markers, m ≤ docEnd) :
    (markerSegments markers docEnd).length = markers.length ∧
    ((markerSegments markers docEnd).getD 0 (0, 0)).1 = 0 ∧
    (∀ i, 0 < i → i < markers.length →
      ((markerSegments markers docEnd).getD i (0, 0)).1 = markers.getD i 0) ∧
    (∀ i, i + 1 < markers.length →
      ((markerSegments markers docEnd).getD i (0, 0)).2
        = ((markerSegments markers docEnd).getD (i + 1) (0, 0)).1) ∧
    ((markerSegments markers docEnd).getD (markers.length - 1) (0, 0)).2 = docEnd ∧
    (∀ i, i < markers.length →
      ((markerSegments markers docEnd).getD i (0, 0)).1
        ≤ ((markerSegments markers docEnd).getD i (0, 0)).2) := by
  have hlen : 0 < markers.length := List.length_pos.mpr hne
  have hget : ∀ i j, i < j → (hj : j < markers.length) →
      markers.getD i 0 < markers.getD j 0 := by
    intro i j hij hj
    have hi : i < markers.length := lt_trans hij hj
    rw [List.getD_eq_getElem markers 0 hi, List.getD_eq_getElem markers 0 hj]
    exact List.pairwise_iff_getElem.mp hsorted i j hi hj hij
  have hmem : ∀ i, (hi : i < markers.length) → markers.getD i 0 ≤ docEnd := by
    intro i hi
    rw [List.getD_eq_getElem markers 0 hi]
    exact hbound _ (List.getElem_mem hi)
  refine ⟨by simp [markerSegments], ?_, ?_, ?_, ?_, ?_⟩
  · rw [markerSegments_getD markers docEnd 0 hlen]
    simp
  · intro i hi0 hi
    rw [markerSegments_getD markers docEnd i hi]
    simp [Nat.pos_iff_ne_zero.mp hi0]
  · intro i hi1
    have hi : i < markers.length := by omega
    rw [markerSegments_getD markers docEnd i hi,
      markerSegments_getD markers docEnd (i + 1) hi1]
    simp [hi1, Nat.succ_ne_zero]
  · have hlast : markers.length - 1 < markers.length := by omega
    rw [markerSegments_getD markers docEnd (markers.length - 1) hlast]
    have : ¬(markers.length - 1 + 1 < markers.length) := by omega
    simp [this]
  · intro i hi
    rw [markerSegments_getD markers docEnd i hi]
    by_cases h0 : i = 0
    · simp [h0]
    · by_cases h1 : i + 1 < markers.length
      · simp only [if_neg h0, if_pos h1]
        exact le_of_lt (hget i (i + 1) (by omega) h1)
      · simp only [if_neg h0, if_neg h1]
        exact hmem i hi

/-- Witness for C3 at the concrete marker boundary positions `[2, 5]` with
document end 9 (the spec scenario `[A][marker][B][marker][C]`). -/
theorem marker_segments_partition_witness :
    (markerSegments [2, 5] 9).length = 2 ∧
    ((markerSegments [2, 5] 9).getD 0 (0, 0)).1 = 0 ∧
    ((markerSegments [2, 5] 9).getD 1 (0, 0)).2 = 9 := by
  have h := marker_segments_partition [2, 5] 9 (by decide) (by decide) (by decide)
  exact ⟨h.1, h.2.1, h.2.2.2.2.1⟩

/-! ## Export orchestrator (`handleDownload`)

One invocation of the async `handleDownload` callback, flattened into a
single transition.  Guards run in source order: the readiness check
(throws "Preview is not ready yet."), the busy check over the local
`downloading` state and the cross-invocation `downloadInFlightRef` flag
(throws "A download is already in progress."), then the 1500 ms debounce
against `lastDownloadStartedAtRef` (silent `return`).  Only past the
debounce are `lastDownloadStartedAtRef` and `downloadInFlightRef` set;
a missing iframe document/window then clears the flag and throws before
any status event.  Otherwise the pipeline emits `generating`, and either
finishes with a `ready` status event or fails with an `error` status
event and a rethrow; the `finally` block clears `downloadInFlightRef` and
`downloading` on every one of those paths, so the per-invocation net
effect on `downloading` is `false` (the transient `true` is internal to
the invocation). -/

structure DlState where
  downloading : Bool
  downloadInFlight : Bool
  lastDownloadStartedAt : ℤ
deriving DecidableEq

structure DlEnv where
  ready : Bool
  iframeAvailable : Bool
  pipelineOk : Bool
deriving DecidableEq

inductive PdfStatusEvent where
  | generating
  | readyEvent
  | errorEvent
deriving DecidableEq

inductive DlOutcome where
  | errNotReady
  | errBusy
  | debounced
  | errIframe
  | completed
  | errPipeline
deriving DecidableEq

structure DlResult where
  state : DlState
  outcome : DlOutcome
  events : List PdfStatusEvent
deriving DecidableEq

def handleDownload (env : DlEnv) (s : DlState) (now : ℤ) : DlResult :=
  if env.ready = false then ⟨s, .errNotReady, []⟩
  else if s.downloading = true || s.downloadInFlight = true then ⟨s, .errBusy, []⟩
  else if now - s.lastDownloadStartedAt < 1500 then ⟨s, .debounced, []⟩
  else
    let s1 : DlState :=
      { s with lastDownloadStartedAt := now, downloadInFlight := true }
    if env.iframeAvailable = false then
      ⟨{ s1 with downloadInFlight := false }, .errIframe, []⟩
    else if env.pipelineOk = true then
      ⟨{ s1 with downloadInFlight := false, downloading := false }, .completed,
       [.generating, .readyEvent]⟩
    else
      ⟨{ s1 with downloadInFlight := false, downloading := false }, .errPipeline,
       [.generating, .errorEvent]⟩

/-- Claim C5: with the preview ready and no download in flight, an
invocation arriving less than 1500 ms after the start of the previous
accepted invocation returns silently: no error, no flag set, no export
status event, and the state is left untouched.  Consequently two download
invocations separated by less than 1500 ms produce exactly one export
attempt (exactly one `generating` status event between them), the second
being debounced. -/
theorem download_debounce_silent (env : DlEnv) (s : DlState)
    (hready : env.ready = true) (hidle : s.downloading = false)
    (hflag : s.downloadInFlight = false) :
    (∀ now : ℤ, now - s.lastDownloadStartedAt < 1500 →
      handleDownload env s now = ⟨s, .debounced, []⟩) ∧
    (∀ t0 t1 : ℤ, 1500 ≤ t0 - s.lastDownloadStartedAt → t1 - t0 < 1500 →
      env.iframeAvailable = true →
      ((handleDownload env s t0).events
          ++ (handleDownload env (handleDownload env s t0).state t1).events).count
        PdfStatusEvent.generating = 1 ∧
      (handleDownload env (handleDownload env s t0).state t1).outcome
        = .debounced) := by
  constructor
  · intro now hlt
    simp [handleDownload, hready, hidle, hflag, hlt]
  · intro t0 t1 hfirst hgap hiframe
    have hnotlt : ¬(t0 - s.lastDownloadStartedAt < 1500) := by omega
    cases hpipe : env.pipelineOk with
    | true =>
      simp [handleDownload, hready, hidle, hflag, hnotlt, hiframe, hpipe, hgap,
        List.count_cons]
    | false =>
      simp [handleDownload, hready, hidle, hflag, hnotlt, hiframe, hpipe, hgap,
        List.count_cons]

/-- Witness for C5 at a concrete state and clock values (first call at
t = 2000 accepted, second at t = 2500 debounced). -/
theorem download_debounce_silent_witness :
    ((handleDownload ⟨true, true, true⟩ ⟨false, false, 0⟩ 2000).events
        ++ (handleDownload ⟨true, true, true⟩
              (handleDownload ⟨true, true, true⟩ ⟨false, false, 0⟩ 2000).state
              2500).events).count PdfStatusEvent.generating = 1 ∧
    (handleDownload ⟨true, true, true⟩
        (handleDownload ⟨true, true, true⟩ ⟨false, false, 0⟩ 2000).state
        2500).outcome = DlOutcome.debounced := by
  have h := download_debounce_silent ⟨true, true, true⟩ ⟨false, false, 0⟩
    rfl rfl rfl
  exact h.2 2000 2500 (by norm_num) (by norm_num) rfl

/-- Counterexample for C6: a download invocation arriving while another
download is in flight (`downloading = true`) but with the preview not
ready does not raise the Busy error — the readiness guard runs first and
raises "Preview is not ready yet." instead. -/
theorem busy_not_raised_when_not_ready :
    (handleDownload ⟨false, true, true⟩ ⟨true, false, 0⟩ 100000).outcome
        ≠ DlOutcome.errBusy ∧
    (handleDownload ⟨false, true, true⟩ ⟨true, false, 0⟩ 100000).outcome
        = DlOutcome.errNotReady := by
  constructor
  · simp [handleDownload]
  · simp [handleDownload]

/-- Claim C6 (amended): if a download invocation arrives with the preview
ready while another download is already in flight (local `downloading`
state or cross-invocation in-flight flag set), it raises the Busy error
("A download is already in progress.") before any suspension point and
before any pipeline work: the state is unchanged, no status event is
emitted, and no second pipeline run starts. -/
theorem busy_guard_when_ready (env : DlEnv) (s : DlState) (now : ℤ)
    (hready : env.ready = true)
    (hbusy : s.downloading = true ∨ s.downloadInFlight = true) :
    handleDownload env s now = ⟨s, .errBusy, []⟩ := by
  rcases hbusy with hb | hb <;> simp [handleDownload, hready, hb]

/-- Witness for C6 (amended): in-flight flag set, preview ready. -/
theorem busy_guard_when_ready_witness :
    handleDownload ⟨true, true, true⟩ ⟨false, true, 0⟩ 100000
      = ⟨⟨false, true, 0⟩, DlOutcome.errBusy, []⟩ :=
  busy_guard_when_ready ⟨true, true, true⟩ ⟨false, true, 0⟩ 100000 rfl (Or.inr rfl)

/-- Claim C7: every invocation that starts with the in-flight flag clear
ends with it clear, on every exit path — not-ready error, busy error
(vacuous here since the flag was clear), debounce short-circuit (which
never sets the flag), missing-iframe error, successful completion, and
pipeline failure. -/
theorem in_flight_flag_cleared (env : DlEnv) (s : DlState) (now : ℤ)
    (h : s.downloadInFlight = false) :
    (handleDownload env s now).state.downloadInFlight = false := by
  simp only [handleDownload]
  split_ifs <;> simp [h]

/-- Witness for C7 on a successful download path. -/
theorem in_flight_flag_cleared_witness :
    (handleDownload ⟨true, true, true⟩ ⟨false, false, 0⟩ 2000).state.downloadInFlight
      = false :=
  in_flight_flag_cleared ⟨true, true, true⟩ ⟨false, false, 0⟩ 2000 rfl

/-! ## JavaScript string trimming

`String.prototype.trim()` strips leading and trailing whitespace; it is
embedded executably over the string's character list (so concrete runs of
the machines below can be evaluated inside the kernel). -/

def jsTrim (s : String) : String :=
  ⟨((s.data.dropWhile Char.isWhitespace).reverse.dropWhile
      Char.isWhitespace).reverse⟩

/-! ## Inbound command payload validation (`parseActionCommand`)

`JSON.parse` is the browser's parser, an external collaborator; its result
is embedded as `Option JsonValue`, with `none` standing for a parse
failure (thrown exception).  `parseActionCommand` then rejects
non-objects, arrays and `null`, requires a non-empty trimmed string `id`,
and requires the trimmed, lower-cased `action` to be `print` or
`download`. -/

inductive JsonValue where
  | jnull
  | jbool (b : Bool)
  | jnum (q : ℚ)
  | jstr (s : String)
  | jarr (elems : List JsonValue)
  | jobj (fields : List (String × JsonValue))

inductive CommandAction where
  | print
  | download
deriving DecidableEq

def actionName : CommandAction → String
  | .print => "print"
  | .download => "download"

structure CommandRequest where
  id : String
  action : CommandAction
  raw : String
deriving DecidableEq

structure ParseCommandResult where
  command : Option CommandRequest := none
  error : Option String := none
deriving DecidableEq

def jsonField (fields : List (String × JsonValue)) (key : String) : Option JsonValue :=
  (fields.find? (fun p => p.1 == key)).map (fun p => p.2)

def parseActionCommand (raw : String) (parsed : Option JsonValue) :
    ParseCommandResult :=
  match parsed with
  | none => { error := some "Invalid actionCommand JSON." }
  | some (.jobj fields) =>
    let id :=
      match jsonField fields "id" with
      | some (.jstr s) => jsTrim s
      | _ => ""
    let actionRaw :=
      match jsonField fields "action" with
      | some (.jstr s) => (jsTrim s).toLower
      | _ => ""
    if id = "" then { error := some "actionCommand.id is required." }
    else if actionRaw = "print" then
      { command := some { id := id, action := .print, raw := raw } }
    else if actionRaw = "download" then
      { command := some { id := id, action := .download, raw := raw } }
    else { error := some "actionCommand.action must be \"print\" or \"download\"." }
  | some _ => { error := some "actionCommand must be a JSON object." }

/-! ## Host command dispatch (`HtmlToPdfComponent.updateView`)

The command section of `updateView`: the host trims the `actionCommand`
parameter before comparing it with the last seen value, reacts only to a
changed, non-empty value, and then either emits a single error
acknowledgment (validation failure), runs the popup path
(`handlePopupCommand`), or hands the parsed command to the inline preview
by storing it in `pendingInlineCommand`.  `openPrintPopup` and the wall
clock are external: `popupOpens` tells whether the popup window could be
opened, and `ts` is the acknowledgment timestamp string. -/

inductive RenderMode where
  | inlineMode
  | popupMode
deriving DecidableEq

structure CommandAck where
  id : String
  action : String
  status : String
  message : Option String
  timestamp : String
deriving DecidableEq

structure DispatchState where
  lastActionCommandRaw : String
  pendingInlineCommand : Option CommandRequest
deriving DecidableEq

structure DispatchResult where
  state : DispatchState
  acks : List CommandAck
  popupOpenCalls : ℕ
deriving DecidableEq

def handlePopupCommand (htmlNonempty popupOpens : Bool) (ts : String)
    (s : DispatchState) (c : CommandRequest) : DispatchResult :=
  if htmlNonempty = false then
    ⟨s, [⟨c.id, actionName c.action, "error",
         some "No HTML content is available.", ts⟩], 0⟩
  else if c.action = .download then
    ⟨s, [⟨c.id, actionName c.action, "error",
         some "Download command is only supported in \"inline\" renderMode.", ts⟩], 0⟩
  else
    ⟨s, [⟨c.id, actionName c.action,
         if popupOpens then "completed" else "error",
         if popupOpens then none
         else some "Popup blocked. Please allow popups for this site and try again.",
         ts⟩], 1⟩

def commandDispatchStep (mode : RenderMode) (htmlNonempty popupOpens : Bool)
    (ts : String) (s : DispatchState) (actionCommandRaw : String)
    (parsed : Option JsonValue) : DispatchResult :=
  if actionCommandRaw = s.lastActionCommandRaw then ⟨s, [], 0⟩
  else
    let s1 : DispatchState := { s with lastActionCommandRaw := actionCommandRaw }
    if actionCommandRaw = "" then ⟨s1, [], 0⟩
    else
      match hc : (parseActionCommand actionCommandRaw parsed).command with
      | none =>
        ⟨s1, [⟨"", "unknown", "error",
             some ((parseActionCommand actionCommandRaw parsed).error.getD
               "Invalid command."), ts⟩], 0⟩
      | some cmd =>
        if mode = .popupMode then handlePopupCommand htmlNonempty popupOpens ts s1 cmd
        else ⟨{ s1 with pendingInlineCommand := some cmd }, [], 0⟩

/-- Counterexample for C8: an empty (or whitespace-only, after the host's
trim) `actionCommand` payload is invalid JSON, yet the dispatcher ignores
it silently — zero acknowledgments are emitted instead of the one error
acknowledgment the claim requires for every invalid payload. -/
theorem empty_payload_no_ack :
    (commandDispatchStep .inlineMode true true "t" ⟨"x", none⟩ "" none).acks
      = [] ∧
    parseActionCommand "" none
      = { error := some "Invalid actionCommand JSON." } := by
  constructor
  · simp [commandDispatchStep]
  · rfl

/-- Claim C8 (amended): for every changed, non-empty (after trimming)
inbound `actionCommand` payload that fails validation — invalid JSON, a
non-object or array, a missing or empty `id`, or an action outside the
enumerated set — exactly one error acknowledgment is emitted, no print or
download execution occurs (no popup open attempt, and the pending inline
command is left untouched), and the missing-`id` failure carries a message
containing "id is required". -/
theorem invalid_payload_single_error_ack (mode : RenderMode)
    (htmlNonempty popupOpens : Bool) (ts : String) (s : DispatchState)
    (raw : String) (parsed : Option JsonValue)
    (hchanged : raw ≠ s.lastActionCommandRaw) (hne : raw ≠ "")
    (hinvalid : (parseActionCommand raw parsed).command = none) :
    (commandDispatchStep mode htmlNonempty popupOpens ts s raw parsed).acks
      = [⟨"", "unknown", "error",
          some ((parseActionCommand raw parsed).error.getD "Invalid command."), ts⟩] ∧
    (commandDispatchStep mode htmlNonempty popupOpens ts s raw parsed).acks.length
      = 1 ∧
    (commandDispatchStep mode htmlNonempty popupOpens ts s raw
        parsed).state.pendingInlineCommand = s.pendingInlineCommand ∧
    (commandDispatchStep mode htmlNonempty popupOpens ts s raw
        parsed).popupOpenCalls = 0 ∧
    (parseActionCommand raw (some (.jobj [("action", .jstr "print")]))).error
      = some "actionCommand.id is required." ∧
    (∃ pre post : String,
      "actionCommand.id is required." = pre ++ "id is required" ++ post) := by
  refine ⟨?_, ?_, ?_, ?_, rfl, ⟨"actionCommand.", ".", rfl⟩⟩ <;>
    simp only [commandDispatchStep, if_neg hchanged, if_neg hne] <;>
    split <;> simp_all

/-- Witness for C8 (amended) at a concrete malformed payload ("bad", which
the external JSON parser rejects, embedded as `parsed = none`). -/
theorem invalid_payload_single_error_ack_witness :
    (commandDispatchStep .inlineMode true true "t" ⟨"", none⟩ "bad" none).acks
      = [⟨"", "unknown", "error", some "Invalid actionCommand JSON.", "t"⟩] ∧
    (commandDispatchStep .inlineMode true true "t" ⟨"", none⟩ "bad"
        none).popupOpenCalls = 0 := by
  have h := invalid_payload_single_error_ack .inlineMode true true "t" ⟨"", none⟩
    "bad" none (by simp) (by simp) rfl
  exact ⟨h.1, h.2.2.2.1⟩

/-! ## Segment rasterizer (`renderNodeSegmentAsCanvas` / `isIgnorableNode`)

DOM nodes are embedded as text nodes (nodeType 3), element nodes and
comment nodes; `isIgnorableNode` matches exactly the source test
`node.nodeType === 3 && !(node.textContent || "").trim()`.  The rasterizer
filters the segment's node list, returns `null` (here `none`) when no
significant node remains, and otherwise clones the full node list into the
offscreen host and captures it (the capture itself — `html2canvas` — is
external; the canvas is represented by the captured node list). -/

inductive DomNode where
  | text (content : String)
  | element (tag : String) (children : List DomNode)
  | comment (content : String)

def isIgnorableNode : DomNode → Bool
  | .text content => jsTrim content == ""
  | _ => false

structure SegmentCanvas where
  capturedNodes : List DomNode

def renderNodeSegmentAsCanvas (nodes : List DomNode) : Option SegmentCanvas :=
  let significant := nodes.filter (fun node => !(isIgnorableNode node))
  if significant.isEmpty then none else some ⟨nodes⟩

def markerPathPages (segments : List (List DomNode)) : List SegmentCanvas :=
  segments.filterMap renderNodeSegmentAsCanvas

/-- Claim C9: a segment whose node list contains only whitespace-only text
nodes rasterizes to `none` and contributes no PDF page, while every
segment with at least one significant node is rasterized and contributes
exactly one canvas; the page list of the marker path is exactly the list
of segments that contain a significant node. -/
theorem segments_skip_whitespace_only (nodes : List DomNode)
    (segments : List (List DomNode)) :
    (renderNodeSegmentAsCanvas nodes = none ↔
      ∀ node ∈ nodes, isIgnorableNode node = true) ∧
    markerPathPages segments
      = (segments.filter
          (fun seg => seg.any (fun node => !(isIgnorableNode node)))).map
          (fun seg => ⟨seg⟩) := by
  constructor
  · simp only [renderNodeSegmentAsCanvas]
    constructor
    · intro h node hmem
      by_cases hfilter :
          (nodes.filter (fun node => !(isIgnorableNode node))).isEmpty
      · have : nodes.filter (fun node => !(isIgnorableNode node)) = [] :=
          List.isEmpty_iff.mp hfilter
        have := List.filter_eq_nil.mp this node hmem
        simpa using this
      · simp [hfilter] at h
    · intro h
      have : nodes.filter (fun node => !(isIgnorableNode node)) = [] := by
        rw [List.filter_eq_nil]
        intro node hmem
        simp [h node hmem]
      simp [this]
  · induction segments with
    | nil => rfl
    | cons seg rest ih =>
      by_cases h : (seg.filter (fun node => !(isIgnorableNode node))).isEmpty
      · have hnil : seg.filter (fun node => !(isIgnorableNode node)) = [] :=
          List.isEmpty_iff.mp h
        have hany : seg.any (fun node => !(isIgnorableNode node)) = false := by
          rw [Bool.eq_false_iff]
          intro hany
          obtain ⟨node, hmem, hsig⟩ := List.any_eq_true.mp hany
          have := List.filter_eq_nil.mp hnil node hmem
          simp_all
        simp only [markerPathPages, List.filterMap_cons,
          renderNodeSegmentAsCanvas, h, if_pos, List.filter_cons, hany,
          Bool.false_eq_true, if_neg, ite_false]
        exact ih
      · have hany : seg.any (fun node => !(isIgnorableNode node)) = true := by
          obtain ⟨node, hmem⟩ := List.isEmpty_eq_false_iff_exists_mem.mp
            (Bool.eq_false_iff.mpr h)
          have hmem2 := List.mem_filter.mp hmem
          exact List.any_eq_true.mpr ⟨node, hmem2.1, hmem2.2⟩
        simp only [markerPathPages, List.filterMap_cons,
          renderNodeSegmentAsCanvas, h, List.filter_cons, hany, if_true]
        simp only [markerPathPages] at ih
        simp [ih]

/-- Witness for C9: a whitespace-only segment is skipped, a one-element
significant segment yields one page. -/
theorem segments_skip_whitespace_only_witness :
    (renderNodeSegmentAsCanvas [DomNode.text "  "] = none ↔
      ∀ node ∈ [DomNode.text "  "], isIgnorableNode node = true) ∧
    markerPathPages [[DomNode.text "  "], [DomNode.element "div" []]]
      = ([[DomNode.text "  "], [DomNode.element "div" []]].filter
          (fun seg => seg.any (fun node => !(isIgnorableNode node)))).map
          (fun seg => ⟨seg⟩) :=
  segments_skip_whitespace_only [DomNode.text "  "]
    [[DomNode.text "  "], [DomNode.element "div" []]]

/-! ## PDF output state (`HtmlToPdfComponent.handlePdfOutput` / `getOutputs`)

The component state is restricted to the three PDF output fields the claim
is about; `getOutputs` projects them in the same way the source returns
`pdfBase64`, `pdfFileName` and `pdfStatus` among its outputs. -/

structure PdfOutputUpdate where
  status : String
  base64 : Option String
  fileName : Option String
  message : Option String
deriving DecidableEq

structure ComponentPdfState where
  pdfStatus : String
  pdfBase64 : String
  pdfFileName : String
deriving DecidableEq

def handlePdfOutput (s : ComponentPdfState) (update : PdfOutputUpdate) :
    ComponentPdfState :=
  if update.status = "generating" then ⟨"generating", "", ""⟩
  else if update.status = "ready" then
    ⟨"ready", update.base64.getD "", update.fileName.getD ""⟩
  else if update.status = "error" then ⟨"error", "", ""⟩
  else ⟨"idle", "", ""⟩

structure OutputsModel where
  pdfBase64 : String
  pdfFileName : String
  pdfStatus : String
deriving DecidableEq

def getOutputs (s : ComponentPdfState) : OutputsModel :=
  ⟨s.pdfBase64, s.pdfFileName, s.pdfStatus⟩

/-- Claim C10: after any export status update handled by the component,
the `pdfBase64` and `pdfFileName` outputs are non-empty only when
`pdfStatus` is "ready": every non-"ready" transition ("generating",
"error", and any other status) resets both outputs to the empty string,
and only the "ready" transition populates them (with the update's base64
payload and filename). -/
theorem pdf_outputs_only_ready (s : ComponentPdfState)
    (update : PdfOutputUpdate) :
    ((getOutputs (handlePdfOutput s update)).pdfStatus ≠ "ready" →
      (getOutputs (handlePdfOutput s update)).pdfBase64 = "" ∧
      (getOutputs (handlePdfOutput s update)).pdfFileName = "") ∧
    (update.status ≠ "ready" →
      (handlePdfOutput s update).pdfBase64 = "" ∧
      (handlePdfOutput s update).pdfFileName = "" ∧
      (handlePdfOutput s update).pdfStatus ≠ "ready") ∧
    (update.status = "ready" →
      (handlePdfOutput s update).pdfStatus = "ready" ∧
      (handlePdfOutput s update).pdfBase64 = update.base64.getD "" ∧
      (handlePdfOutput s update).pdfFileName = update.fileName.getD "") := by
  simp only [handlePdfOutput, getOutputs]
  split_ifs with h1 h2 h3 <;> simp_all

/-- Witness for C10 on a concrete "error" transition out of a populated
"ready" state. -/
theorem pdf_outputs_only_ready_witness :
    (handlePdfOutput ⟨"ready", "data", "f.pdf"⟩
        ⟨"error", some "data", some "f.pdf", some "boom"⟩).pdfBase64 = "" ∧
    (handlePdfOutput ⟨"ready", "data", "f.pdf"⟩
        ⟨"error", some "data", some "f.pdf", some "boom"⟩).pdfFileName = "" := by
  have h := pdf_outputs_only_ready ⟨"ready", "data", "f.pdf"⟩
    ⟨"error", some "data", some "f.pdf", some "boom"⟩
  have h2 := h.2.1 (by simp)
  exact ⟨h2.1, h2.2.1⟩

/-! ## Command state machine (`PrintPreview` command effects)

Two React effects drive inline command execution.  The queue effect
(dependencies: `props.commandRequest`) ignores blank payloads and payloads
whose `raw` equals the last queued `raw`, then records the payload as
pending.  The execute effect (dependencies: `pendingCommand`, readiness,
`downloading`, …) skips when the pending `raw` is currently executing,
drops the pending command without a second acknowledgment when it matches
the last completed `raw`, emits an error acknowledgment when no HTML is
available, waits while not ready or mid-download, and otherwise executes
(print or download) and acknowledges exactly once, recording the `raw` as
completed.  A `deliver` step models a new `commandRequest` prop arriving
(queue effect then execute effect); a `wake` step models the execute
effect re-running because one of its other dependencies changed.  Events
record executions and acknowledgments with the `raw` they belong to. -/

structure CommandMachineState where
  lastQueuedRaw : String
  executingRaw : String
  completedRaw : String
  pending : Option CommandRequest
deriving DecidableEq

def initialMachineState : CommandMachineState := ⟨"", "", "", none⟩

structure StepEnv where
  htmlNonempty : Bool
  ready : Bool
  downloading : Bool
  execOk : Bool
deriving DecidableEq

inductive CmdEvent where
  | executed (raw : String)
  | acked (raw : String) (ok : Bool)
deriving DecidableEq

def queueStep (s : CommandMachineState) (c : CommandRequest) :
    CommandMachineState :=
  if jsTrim c.raw = "" then s
  else if c.raw = s.lastQueuedRaw then s
  else { s with lastQueuedRaw := c.raw, pending := some c }

def executeStep (env : StepEnv) (s : CommandMachineState) :
    CommandMachineState × List CmdEvent :=
  match s.pending with
  | none => (s, [])
  | some c =>
    if s.executingRaw = c.raw then (s, [])
    else if s.completedRaw = c.raw then ({ s with pending := none }, [])
    else if env.htmlNonempty = false then
      ({ s with pending := none }, [.acked c.raw false])
    else if env.ready = false ∨ env.downloading = true then (s, [])
    else
      ({ s with executingRaw := c.raw, completedRaw := c.raw, pending := none },
       [.executed c.raw, .acked c.raw env.execOk])

inductive MachineStep where
  | deliver (env : StepEnv) (c : CommandRequest)
  | wake (env : StepEnv)

def runStep (s : CommandMachineState) :
    MachineStep → CommandMachineState × List CmdEvent
  | .deliver env c => executeStep env (queueStep s c)
  | .wake env => executeStep env s

def runMachine (s : CommandMachineState) :
    List MachineStep → CommandMachineState × List CmdEvent
  | [] => (s, [])
  | step :: rest =>
    ((runMachine (runStep s step).1 rest).1,
     (runStep s step).2 ++ (runMachine (runStep s step).1 rest).2)

def isExecEventFor (r : String) : CmdEvent → Bool
  | .executed r2 => r2 == r
  | _ => false

def isAckEventFor (r : String) : CmdEvent → Bool
  | .acked r2 _ => r2 == r
  | _ => false

def execCount (evts : List CmdEvent) (r : String) : ℕ :=
  (evts.filter (isExecEventFor r)).length

def ackCount (evts : List CmdEvent) (r : String) : ℕ :=
  (evts.filter (isAckEventFor r)).length

def goodEnv : StepEnv := ⟨true, true, false, true⟩

/-- Counterexample for C1: the deduplication guards hold only the most
recent queued/completed `raw`, so delivering payload "a", then "b", then
"a" again (everything ready, no failures) executes and acknowledges "a"
twice — an intervening distinct payload defeats the at-most-once
guarantee for a given `raw`. -/
theorem command_redelivery_reexecutes :
    execCount (runMachine initialMachineState
      [.deliver goodEnv ⟨"1", .print, "a"⟩,
       .deliver goodEnv ⟨"2", .print, "b"⟩,
       .deliver goodEnv ⟨"3", .print, "a"⟩]).2 "a" = 2 ∧
    ackCount (runMachine initialMachineState
      [.deliver goodEnv ⟨"1", .print, "a"⟩,
       .deliver goodEnv ⟨"2", .print, "b"⟩,
       .deliver goodEnv ⟨"3", .print, "a"⟩]).2 "a" = 2 := by
  constructor <;> decide

def stepDeliversOnly (r : String) : MachineStep → Bool
  | .deliver _ c => c.raw == r
  | .wake _ => true

/-- Inductive invariant for the all-deliveries-carry-`raw = r` schedules:
the event counters for `r` never exceed one, a pending command always
carries `r` with nothing emitted yet and its `raw` neither executing nor
completed, and while `r` was never queued nothing has happened at all. -/
def MachineInv (r : String) (s : CommandMachineState) (e a : ℕ) : Prop :=
  e ≤ 1 ∧ a ≤ 1 ∧
  (∀ c, s.pending = some c →
    (c.raw = r ∧ e = 0 ∧ a = 0 ∧ s.completedRaw ≠ c.raw ∧
      s.executingRaw ≠ c.raw)) ∧
  (s.lastQueuedRaw ≠ r →
    (e = 0 ∧ a = 0 ∧ s.pending = none ∧ s.completedRaw ≠ r ∧
      s.executingRaw ≠ r))

theorem queueStep_inv {r : String} {s : CommandMachineState} {e a : ℕ}
    (c : CommandRequest) (hc : c.raw = r) (h : MachineInv r s e a) :
    MachineInv r (queueStep s c) e a := by
  obtain ⟨he, ha, hpend, hlast⟩ := h
  unfold queueStep
  split_ifs with h1 h2
  · exact ⟨he, ha, hpend, hlast⟩
  · exact ⟨he, ha, hpend, hlast⟩
  · have hne : s.lastQueuedRaw ≠ r := fun hl => h2 (hc.trans hl.symm)
    obtain ⟨he0, ha0, hp0, hcomp, hexec⟩ := hlast hne
    refine ⟨he, ha, ?_, ?_⟩
    · intro c' hc'
      simp only [Option.some.injEq] at hc'
      subst hc'
      exact ⟨hc, he0, ha0, by simpa [hc] using hcomp, by simpa [hc] using hexec⟩
    · intro hcontra
      exact absurd hc hcontra

theorem executeStep_inv {r : String} {s : CommandMachineState} {e a : ℕ}
    (env : StepEnv) (h : MachineInv r s e a) :
    MachineInv r (executeStep env s).1
      (e + execCount (executeStep env s).2 r)
      (a + ackCount (executeStep env s).2 r) := by
  obtain ⟨he, ha, hpend, hlast⟩ := h
  rcases hp : s.pending with _ | c
  · simp only [executeStep, hp, execCount, ackCount, List.filter_nil,
      List.length_nil, Nat.add_zero]
    exact ⟨he, ha, hpend, hlast⟩
  · obtain ⟨hcr, he0, ha0, hcomp, hexec⟩ := hpend c hp
    subst hcr
    subst he0
    subst ha0
    have hlq : s.lastQueuedRaw = c.raw := by
      by_contra hne
      rw [(hlast hne).2.2.1] at hp
      exact Option.noConfusion hp
    simp only [executeStep, hp, if_neg hexec, if_neg hcomp]
    by_cases hhtml : env.htmlNonempty = false
    · simp only [if_pos hhtml]
      refine ⟨?_, ?_, ?_, ?_⟩
      · simp [execCount, isExecEventFor]
      · simp [ackCount, isAckEventFor]
      · intro c' hc'
        simp at hc'
      · intro hne
        exact absurd hlq hne
    · simp only [if_neg hhtml]
      by_cases hstall : env.ready = false ∨ env.downloading = true
      · simp only [if_pos hstall, execCount, ackCount, List.filter_nil,
          List.length_nil, Nat.add_zero]
        exact ⟨he, ha, hpend, hlast⟩
      · simp only [if_neg hstall]
        refine ⟨?_, ?_, ?_, ?_⟩
        · simp [execCount, isExecEventFor]
        · simp [ackCount, isAckEventFor]
        · intro c' hc'
          simp at hc'
        · intro hne
          exact absurd hlq hne

theorem runStep_inv {r : String} {s : CommandMachineState} {e a : ℕ}
    (step : MachineStep) (hstep : stepDeliversOnly r step = true)
    (h : MachineInv r s e a) :
    MachineInv r (runStep s step).1
      (e + execCount (runStep s step).2 r)
      (a + ackCount (runStep s step).2 r) := by
  match step with
  | .deliver env c =>
    have hc : c.raw = r := by
      simpa [stepDeliversOnly] using hstep
    exact executeStep_inv env (queueStep_inv c hc h)
  | .wake env => exact executeStep_inv env h

theorem runMachine_inv {r : String} (steps : List MachineStep) :
    ∀ (s : CommandMachineState) (e a : ℕ), MachineInv r s e a →
      (∀ st ∈ steps, stepDeliversOnly r st = true) →
      MachineInv r (runMachine s steps).1
        (e + execCount (runMachine s steps).2 r)
        (a + ackCount (runMachine s steps).2 r) := by
  induction steps with
  | nil =>
    intro s e a h _
    simpa [runMachine, execCount, ackCount] using h
  | cons step rest ih =>
    intro s e a h hall
    have h1 := runStep_inv step (hall step (by simp)) h
    have h2 := ih (runStep s step).1 _ _ h1
      (fun st hst => hall st (by simp [hst]))
    simpa [runMachine, execCount, ackCount, List.filter_append,
      Nat.add_assoc] using h2

/-- Claim C1 (amended): starting from the initial state, for any schedule
of effect runs in which every delivered payload carries the same `raw`
value `r` — i.e. that exact payload is redelivered any number of times,
under any readiness/html/downloading conditions, with no *different*
payload queued in between — at most one execution occurs and at most one
acknowledgment is emitted for `r`.  (The counterexample shows the
"regardless of which other payloads are delivered in between" part of the
original claim fails: an intervening distinct payload re-arms both.) -/
theorem command_same_raw_at_most_once (r : String) (steps : List MachineStep)
    (hsteps : ∀ st ∈ steps, stepDeliversOnly r st = true) :
    execCount (runMachine initialMachineState steps).2 r ≤ 1 ∧
    ackCount (runMachine initialMachineState steps).2 r ≤ 1 := by
  have h0 : MachineInv r initialMachineState 0 0 := by
    refine ⟨Nat.zero_le 1, Nat.zero_le 1, ?_, ?_⟩
    · intro c hc
      exact Option.noConfusion hc
    · intro hne
      exact ⟨rfl, rfl, rfl, hne, hne⟩
  have h := runMachine_inv steps initialMachineState 0 0 h0 hsteps
  exact ⟨by simpa using h.1, by simpa using h.2.1⟩

/-- Witness for C1 (amended): redelivering the same download payload
three times (with execute-effect re-runs in between) yields at most one
execution and one acknowledgment for that `raw`. -/
theorem command_same_raw_at_most_once_witness :
    execCount (runMachine initialMachineState
      [.deliver goodEnv ⟨"1", .download, "a"⟩, .wake goodEnv,
       .deliver goodEnv ⟨"1", .download, "a"⟩,
       .deliver goodEnv ⟨"1", .download, "a"⟩]).2 "a" ≤ 1 ∧
    ackCount (runMachine initialMachineState
      [.deliver goodEnv ⟨"1", .download, "a"⟩, .wake goodEnv,
       .deliver goodEnv ⟨"1", .download, "a"⟩,
       .deliver goodEnv ⟨"1", .download, "a"⟩]).2 "a" ≤ 1 :=
  command_same_raw_at_most_once "a"
    [.deliver goodEnv ⟨"1", .download, "a"⟩, .wake goodEnv,
     .deliver goodEnv ⟨"1", .download, "a"⟩,
     .deliver goodEnv ⟨"1", .download, "a"⟩]
    (by decide)

end HtmlPdf
